import Mathlib

/-!
Shallow embedding of the pok-gacha server (src/server.js, Postgres variant
lines 1-472 and SQLite variant lines 473-920) in Lean 4, together with
theorems settling the frozen claims about the acquisition and economy engine.

Conventions of the embedding:
* JavaScript numbers that the code uses as integer milliseconds or integer
  currency are modelled as `Nat` (timestamps, counters, grades) or `Int`
  (the `money` balance, which is debited and credited).
* JavaScript truthiness on strings is modelled explicitly: the empty string
  is the falsy value, and `jsOr` is the `||` operator restricted to strings.
* Randomness is modelled by passing the consumed uniform samples (a rational
  in `[0,1)` for `Math.random()`) or the picked index as explicit arguments.
* Network effects in `drawCard` are modelled by an explicit list of
  per-iteration fetch outcomes (`TryInput`); the second component of
  `drawCard`'s result counts how many remote list fetches were performed,
  instrumenting the otherwise unobservable ordering of sources.
-/

namespace PokGacha

/-! ## Data model -/

/-- A normalized card as produced by `drawCard` (src/server.js lines 236-241):
display name, set name, rarity label and image reference.  Offline pool
entries are the same shape with `rarity` unused and possibly an empty
image. -/
structure Card where
  name : String
  set : String
  rarity : String
  image : String
deriving Repr, DecidableEq

/-- A row of the `collection` table (src/server.js lines 100-111): a
per-player entry keyed by `idKey`, with best grade, mint flag stored as the
integer 0 or 1, accumulated count and last-acquired timestamp. -/
structure Entry where
  name : String
  setName : String
  image : String
  grade : Nat
  mint : Nat
  count : Nat
  lastAt : Nat
deriving Repr, DecidableEq

/-- A row of the append-only `pulls` table (src/server.js lines 113-122).
The `at` column is rendered `atTime` because `at` is reserved in Lean. -/
structure Pull where
  name : String
  setName : String
  image : String
  grade : Nat
  mint : Nat
  atTime : Nat
deriving Repr, DecidableEq

/-! ## Pay loop (src/server.js lines 138-160 and 589-607) -/

/-- `PAY_AMOUNT` (line 139): currency granted per accrual tick. -/
def PAY_AMOUNT : Nat := 10

/-- `PAY_EVERY_MS` (line 140): the accrual tick interval, 5 minutes. -/
def PAY_EVERY_MS : Nat := 5 * 60 * 1000

/-- `applyPayForUser` (lines 142-160, and the SQLite variant lines 593-607),
as a pure function of the stored row `(money, lastPay)` and the current
time: `last` defaults to `now` when the stored `lastPay` is zero (the
JavaScript `Number(u.lastpay || u.lastPay || 0) || now`, resp.
`u.lastPay || now`), the elapsed time is clamped at zero
(`Math.max(0, now - last)`, which `Nat` subtraction matches), whole ticks
are taken by floor division, and only when at least one tick elapsed is the
row updated to `(money + ticks * PAY_AMOUNT, last + ticks * PAY_EVERY_MS)`;
otherwise the stored row is returned unchanged (no write). -/
def applyPay (money : Int) (lastPay now : Nat) : Int × Nat :=
  let last := if lastPay = 0 then now else lastPay
  let delta := now - last
  let ticks := delta / PAY_EVERY_MS
  if 0 < ticks then
    (money + (ticks * PAY_AMOUNT : Nat), last + ticks * PAY_EVERY_MS)
  else
    (money, lastPay)

/-! ## Grading lottery (src/server.js lines 253-271 and 695-714) -/

/-- `rollGrade` (lines 254-266): one uniform sample `r` in `[0,1)` mapped to
a grade in `1..10` through cumulative thresholds in descending rarity
order. -/
def rollGrade (r : ℚ) : Nat :=
  if r < 0.02 then 10
  else if r < 0.10 then 9
  else if r < 0.20 then 8
  else if r < 0.34 then 7
  else if r < 0.52 then 6
  else if r < 0.70 then 5
  else if r < 0.82 then 4
  else if r < 0.91 then 3
  else if r < 0.97 then 2
  else 1

/-- `rollMintForGrade` (lines 268-271): zero unless the grade is 10, in
which case one uniform sample decides mint with probability 1/3. -/
def rollMintForGrade (grade : Nat) (r : ℚ) : Nat :=
  if grade ≠ 10 then 0
  else if r < 1 / 3 then 1 else 0

/-! ## Image normalization (src/server.js lines 188-200 and 635-647) -/

/-- JavaScript `a || b` restricted to strings, where the empty string is the
falsy value. -/
def jsOr (a b : String) : String := if a = "" then b else a

/-- The possible shapes of the `image` field of a catalog detail record:
absent/null, a direct URL string, or an object offering quality variants
(`high`, `large`, `medium`, `small`, `url`), each possibly missing
(modelled by the empty string, which is falsy in JavaScript). -/
inductive ImgField where
  | null
  | str (s : String)
  | obj (high large medium small url : String)
deriving Repr, DecidableEq

/-- Lowercase a string character by character (the `/i` regex flag);
character-level equivalent of `String.toLower`, kept in structural form so
concrete inputs evaluate. -/
def strLower (s : String) : String := String.mk (s.data.map Char.toLower)

/-- Does `pat` occur as a contiguous run inside the character list? -/
def listContains (pat : List Char) : List Char → Bool
  | [] => pat.isPrefixOf []
  | c :: rest => pat.isPrefixOf (c :: rest) || listContains pat rest

/-- One alternative of the extension regex
`\.(png|jpe?g|webp)(\?|$)` applied to the lowercased string `t`: `t` ends
with the pattern `pat` (for instance `".png"`), or `pat` followed by a
literal `?` occurs somewhere in `t`. -/
def extAlt (t pat : String) : Bool :=
  pat.data.isSuffixOf t.data || listContains (pat.data ++ ['?']) t.data

/-- The test `/\.(png|jpe?g|webp)(\?|$)/i.test(imgUrl)` (line 196):
case-insensitive match of one of the four extensions followed by `?` or
the end of the string. -/
def hasImageExt (s : String) : Bool :=
  let t := strLower s
  extAlt t ".png" || extAlt t ".jpg" || extAlt t ".jpeg" || extAlt t ".webp"

/-- `imgUrl.replace(/\/$/, "")` (line 197): strip a single trailing
slash. -/
def stripTrailingSlash (s : String) : String :=
  if ['/'].isSuffixOf s.data then String.mk s.data.dropLast else s

/-- `normalizeImageUrl` (lines 188-200): resolve an object image to its
first truthy quality variant in the order high, large, medium, small, url;
reject null/empty results; when the resulting string has no recognized
image extension, strip a trailing slash and append `/high.png`. -/
def normalizeImageUrl : ImgField → Option String
  | .null => none
  | .str s =>
    if s = "" then none
    else if hasImageExt s then some s
    else some (stripTrailingSlash s ++ "/high.png")
  | .obj high large medium small url =>
    let v := jsOr high (jsOr large (jsOr medium (jsOr small url)))
    if v = "" then none
    else if hasImageExt v then some v
    else some (stripTrailingSlash v ++ "/high.png")

/-! ## Card resolver (src/server.js lines 202-251 and 649-693) -/

/-- A brief descriptor from the catalog list endpoint: identifier (empty
string when missing, which is falsy) and display name. -/
structure Brief where
  id : String
  name : String
deriving Repr, DecidableEq

/-- The `set` object of a catalog detail record. -/
structure SetObj where
  name : String
  id : String
deriving Repr, DecidableEq

/-- A catalog detail record as consumed by `drawCard`:
`{name, set, rarity, image}`, with missing string fields modelled by the
empty string and a missing `set` object by `none`. -/
structure Detail where
  name : String
  setO : Option SetObj
  rarity : String
  image : ImgField
deriving Repr, DecidableEq

/-- The external inputs consumed by one iteration of `drawCard`'s remote
loop: the outcome of the list fetch (`none` models a non-ok response or a
JSON body that is not an array), the uniformly random pick index (reduced
modulo the list length, matching `Math.floor(Math.random() * length)`),
and the outcome of the detail fetch (`none` models a non-ok response or an
unparsable body). -/
structure TryInput where
  listResp : Option (List Brief)
  pickIdx : Nat
  detailResp : Option Detail
deriving Repr, DecidableEq

/-- The body of one iteration of the remote loop (lines 218-241): any
`continue` is `none`; a successful iteration builds the normalized card
`{name: c.name || pick.name || "Unknown",
  set: (c.set && (c.set.name || c.set.id)) || "Unknown",
  rarity: c.rarity || "", image: img}`. -/
def tryOnce (t : TryInput) : Option Card :=
  match t.listResp with
  | none => none
  | some cards =>
    if cards.length = 0 then none
    else
      match cards.get? (t.pickIdx % cards.length) with
      | none => none
      | some pick =>
        if pick.id = "" then none
        else
          match t.detailResp with
          | none => none
          | some c =>
            match normalizeImageUrl c.image with
            | none => none
            | some img =>
              some { name := jsOr c.name (jsOr pick.name "Unknown"),
                     set := jsOr
                       (match c.setO with
                        | none => ""
                        | some s => jsOr s.name s.id) "Unknown",
                     rarity := c.rarity,
                     image := img }

/-- `MAX_TRIES` (line 215): the bound of the remote retry loop. -/
def MAX_TRIES : Nat := 6

/-- The remote retry loop `for (attempt = 0; attempt < MAX_TRIES; ...)`
(lines 217-242), with explicit fuel and one `TryInput` consumed per
iteration.  Returns the first successful card, if any, together with the
number of remote list fetches performed. -/
def runTries : Nat → List TryInput → Option Card × Nat
  | 0, _ => (none, 0)
  | _ + 1, [] => (none, 0)
  | n + 1, t :: rest =>
    match tryOnce t with
    | some c => (some c, 1)
    | none =>
      let r := runTries n rest
      (r.1, r.2 + 1)

/-- One offline draw
`const c = offlineCards[Math.floor(Math.random() * offlineCards.length)];
if (c?.image) return c;` guarded by `offlineCards?.length` (lines 204-207
and 245-248): `none` when the pool is empty or the picked card has a falsy
image. -/
def offlineDraw (pool : List Card) (i : Nat) : Option Card :=
  if pool.length = 0 then none
  else
    match pool.get? (i % pool.length) with
    | none => none
    | some c => if c.image = "" then none else some c

/-- The failures `drawCard` can raise: `"Offline only: no cards.json"`
(line 211, forced-offline mode) and `"No image (TCGdex)"` (line 250). -/
inductive DrawErr where
  | offlineOnly
  | noImage
deriving Repr, DecidableEq

/-- `drawCard` (lines 202-251; the SQLite variant lines 649-693 is the same
without the forced-offline branch, i.e. `forceOffline = false`): first a
single draw from the offline pool, returned immediately on success; then
the forced-offline error; then up to `MAX_TRIES` remote tries; then one
final offline draw; otherwise the no-image error.  The second component of
the result counts the remote list fetches performed. -/
def drawCard (forceOffline : Bool) (pool : List Card) (i1 : Nat)
    (tries : List TryInput) (i2 : Nat) : Except DrawErr Card × Nat :=
  match offlineDraw pool i1 with
  | some c => (.ok c, 0)
  | none =>
    if forceOffline then (.error .offlineOnly, 0)
    else
      let r := runTries MAX_TRIES tries
      match r.1 with
      | some c => (.ok c, r.2)
      | none =>
        match offlineDraw pool i2 with
        | some c => (.ok c, r.2)
        | none => (.error .noImage, r.2)

/-! ## Per-player store state and route handlers -/

/-- `COST_ONE` (line 273): the cost of one purchase. -/
def COST_ONE : Int := 5

/-- The per-player slice of the relational store: the `users` row fields
touched by the engine (`money`, `lastPay`), the player's `collection` rows
as a map from `idKey` to the row (the primary key `(user_id, idKey)` makes
this a function), and the player's `pulls` rows in insertion order. -/
structure PState where
  money : Int
  lastPay : Nat
  coll : String → Option Entry
  pulls : List Pull

/-- `applyPayForUser` acting on the state: read the row, apply the pure
accrual, write back. -/
def applyPayS (s : PState) (now : Nat) : PState :=
  let r := applyPay s.money s.lastPay now
  { s with money := r.1, lastPay := r.2 }

/-- The composite identity key
`const idKey = c.name + "__" + c.set + "__" + c.image` (line 345). -/
def idKeyOf (c : Card) : String :=
  c.name ++ "__" ++ c.set ++ "__" ++ c.image

/-- The `INSERT` arm of both collection upserts (lines 357-358 and 814-818):
a fresh row with `count = 1`. -/
def insertEntry (c : Card) (grade mint now : Nat) : Entry :=
  { name := c.name, setName := c.set, image := c.image,
    grade := grade, mint := mint, count := 1, lastAt := now }

/-- The Postgres `ON CONFLICT ... DO UPDATE` arm (lines 359-364):
`count = count + 1`, `grade = GREATEST(collection.grade, EXCLUDED.grade)`,
`mint = CASE WHEN collection.mint = 1 OR EXCLUDED.mint = 1 THEN 1 ELSE 0
END`, `lastAt = EXCLUDED.lastAt`; the other columns keep their stored
values. -/
def pgMerge (old : Entry) (grade mint now : Nat) : Entry :=
  { old with count := old.count + 1,
             grade := max old.grade grade,
             mint := if old.mint = 1 ∨ mint = 1 then 1 else 0,
             lastAt := now }

/-- The SQLite `UPDATE` arm (lines 804-812):
`grade = CASE WHEN new > grade THEN new ELSE grade END`, same `mint` case
and `count`/`lastAt` updates. -/
def sqliteMerge (old : Entry) (grade mint now : Nat) : Entry :=
  { old with count := old.count + 1,
             grade := if grade > old.grade then grade else old.grade,
             mint := if old.mint = 1 ∨ mint = 1 then 1 else 0,
             lastAt := now }

/-- The Postgres upsert (lines 355-367) as a function of the existing row
for the key. -/
def pgUpsert (e : Option Entry) (c : Card) (grade mint now : Nat) : Entry :=
  match e with
  | none => insertEntry c grade mint now
  | some old => pgMerge old grade mint now

/-- The SQLite select-then-insert-or-update (lines 798-819) as a function
of the existing row for the key. -/
def sqliteUpsert (e : Option Entry) (c : Card) (grade mint now : Nat) : Entry :=
  match e with
  | none => insertEntry c grade mint now
  | some old => sqliteMerge old grade mint now

/-- The errors of the `/api/open` handler: `"Pas assez de Pokédollars"`
(line 325) and the 502 `"Erreur image (réessaie)"` after the refund
(line 338). -/
inductive OpenErr where
  | insufficientFunds
  | drawFailed
deriving Repr, DecidableEq

/-- The `/api/open` handler (lines 318-381 and 761-834), parametrized by
the upsert variant and with its external inputs explicit: the accrual
time, the outcome of `drawCard`, the two uniform samples consumed by
`rollGrade` and `rollMintForGrade`, and the timestamp `now` of the pull.
Flow: accrue; reject when the balance is below `COST_ONE` (no mutation);
debit `COST_ONE`; on draw failure credit `COST_ONE` back and fail; on
success roll grade and mint, append the pull row and upsert the collection
row, answering with the resulting balance. -/
def openHandler (upsert : Option Entry → Card → Nat → Nat → Nat → Entry)
    (s : PState) (nowAcc : Nat) (draw : Except DrawErr Card)
    (r1 r2 : ℚ) (now : Nat) : Except OpenErr Int × PState :=
  let s0 := applyPayS s nowAcc
  if s0.money < COST_ONE then (.error .insufficientFunds, s0)
  else
    let s1 : PState := { s0 with money := s0.money - COST_ONE }
    match draw with
    | .error _ => (.error .drawFailed, { s1 with money := s1.money + COST_ONE })
    | .ok c =>
      let grade := rollGrade r1
      let mint := rollMintForGrade grade r2
      let k := idKeyOf c
      let s2 : PState :=
        { s1 with
          pulls := s1.pulls ++ [{ name := c.name, setName := c.set,
                                  image := c.image, grade := grade,
                                  mint := mint, atTime := now }],
          coll := fun x => if x = k
                           then some (upsert (s1.coll k) c grade mint now)
                           else s1.coll x }
      (.ok s2.money, s2)

/-- The `/api/open` handler of the Postgres variant (lines 318-381). -/
def openPG (s : PState) (nowAcc : Nat) (draw : Except DrawErr Card)
    (r1 r2 : ℚ) (now : Nat) : Except OpenErr Int × PState :=
  openHandler pgUpsert s nowAcc draw r1 r2 now

/-- The `/api/open` handler of the SQLite variant (lines 761-834). -/
def openSQ (s : PState) (nowAcc : Nat) (draw : Except DrawErr Card)
    (r1 r2 : ℚ) (now : Nat) : Except OpenErr Int × PState :=
  openHandler sqliteUpsert s nowAcc draw r1 r2 now

/-- The errors of the `/api/sell` handler: the 400 `"Missing idKey"`
(line 435) and the 404 `"Not owned"` (line 442). -/
inductive SellErr where
  | missingKey
  | notOwned
deriving Repr, DecidableEq

/-- The `/api/sell` handler (lines 433-457 and 889-912): reject an empty
`idKey`; fail with `notOwned` when no collection row exists; delete the
row when `count <= 1`, otherwise decrement `count`; in either owned case
credit 1 unit and answer with the resulting balance.  The handler performs
no accrual. -/
def sellHandler (s : PState) (idKey : String) : Except SellErr Int × PState :=
  if idKey = "" then (.error .missingKey, s)
  else
    match s.coll idKey with
    | none => (.error .notOwned, s)
    | some it =>
      let coll2 : String → Option Entry :=
        if it.count ≤ 1 then
          fun x => if x = idKey then none else s.coll x
        else
          fun x => if x = idKey then some { it with count := it.count - 1 }
                   else s.coll x
      let s2 : PState := { s with money := s.money + 1, coll := coll2 }
      (.ok s2.money, s2)

/-! ## The engine as a transition system over one player's state -/

/-- One engine operation on a player's rows, with all external inputs
(clock readings, draw outcomes, random samples) explicit. -/
inductive Op where
  | accrue (now : Nat)
  | purchase (nowAcc : Nat) (draw : Except DrawErr Card) (r1 r2 : ℚ) (now : Nat)
  | sellOne (idKey : String)

/-- The state transition of one operation: `/api/me` and `/api/collection`
only accrue; `/api/open` runs the purchase transaction; `/api/sell` runs
the sale. -/
def step (s : PState) : Op → PState
  | .accrue now => applyPayS s now
  | .purchase nowAcc draw r1 r2 now => (openPG s nowAcc draw r1 r2 now).2
  | .sellOne idKey => (sellHandler s idKey).2

/-- A fresh account as created by `/api/login` (lines 294-298):
`money = 0`, `lastPay = now`, no collection rows, no pulls. -/
def newUser (now : Nat) : PState :=
  { money := 0, lastPay := now, coll := fun _ => none, pulls := [] }

/-- Run a sequence of engine operations from a fresh account. -/
def runOps (now0 : Nat) (ops : List Op) : PState :=
  ops.foldl step (newUser now0)

/-! ## Friend-scoped collection read -/

/-- The failure of the friend-scoped read. -/
inductive FriendErr where
  | forbidden
deriving Repr, DecidableEq

/-- Modelled from the spec: the repository's friend functionality (Friend
Relation edges and the friend-scoped collection read of spec sections 3,
4.6 and 6) is not present under src/, so it is modelled from the spec's
words: `listCollection(ownerPlayer)` is exposed to a requester only if a
Friend Relation requester→owner exists; otherwise it fails with
`Forbidden`.  `edges` is the set of directed friend edges and `colls`
gives each owner's collection rows. -/
def listFriendCollection (edges : List (String × String))
    (colls : String → String → Option Entry) (requester owner : String) :
    Except FriendErr (String → Option Entry) :=
  if (requester, owner) ∈ edges then .ok (colls owner)
  else .error .forbidden

/-! ## Theorems -/

/-- `applyPay` with its local definitions and the constants expanded to
their numeric values; holds by unfolding. -/
theorem applyPay_eq (m : Int) (lp now : Nat) :
    applyPay m lp now =
      if 0 < (now - (if lp = 0 then now else lp)) / 300000 then
        (m + (((now - (if lp = 0 then now else lp)) / 300000) * 10 : Nat),
         (if lp = 0 then now else lp) +
           ((now - (if lp = 0 then now else lp)) / 300000) * 300000)
      else (m, lp) := rfl

/-- Accrual can only increase the stored balance. -/
theorem applyPay_money_le (m : Int) (lp now : Nat) :
    m ≤ (applyPay m lp now).1 := by
  rw [applyPay_eq]
  split_ifs <;> dsimp only <;> omega

/-- Claim C3: for every stored `(balance, lastPay)` with `lastPay > 0` and
every current time `now ≥ lastPay`, accrual adds exactly
`⌊(now - lastPay) / 300000⌋ * 10` units to the balance and advances
`lastPay` by exactly that number of ticks times 300000 ms (not to `now`),
preserving the sub-tick remainder; if zero whole ticks elapsed, the stored
row is returned unchanged (no write).  The constants are the source's
`PAY_EVERY_MS` and `PAY_AMOUNT`. -/
theorem applyPay_accrues_exact_ticks (m : Int) (lp now : Nat)
    (hpos : 0 < lp) (hle : lp ≤ now) :
    applyPay m lp now =
      (m + (((now - lp) / 300000) * 10 : Nat),
       lp + ((now - lp) / 300000) * 300000)
    ∧ ((now - lp) / 300000 = 0 → applyPay m lp now = (m, lp))
    ∧ PAY_EVERY_MS = 300000 ∧ PAY_AMOUNT = 10 := by
  have hlp : lp ≠ 0 := by omega
  rw [applyPay_eq]
  simp only [if_neg hlp]
  refine ⟨?_, ?_, rfl, rfl⟩
  · split_ifs with h
    · rfl
    · have h0 : (now - lp) / 300000 = 0 := by omega
      rw [h0]
      norm_num
  · intro h0
    rw [h0]
    norm_num

/-- Witness for C3: with balance 3, `lastPay = 100` and `now = 720100`
(12 minutes later), accrual grants 2 ticks = 20 units and advances
`lastPay` to 600100, keeping the 2-minute remainder. -/
theorem applyPay_accrues_exact_ticks_witness :
    applyPay 3 100 720100 = (23, 600100) := by
  have h := (applyPay_accrues_exact_ticks 3 100 720100 (by decide) (by decide)).1
  simpa using h

/-- Claim C4: accrual is idempotent within a tick: after one accrual call
at time `t1`, a second call at any `t2` with `t1 ≤ t2` strictly before the
updated `lastPay` plus one tick interval (300000 ms) changes neither the
balance nor `lastPay`. -/
theorem applyPay_idempotent_within_tick (m : Int) (lp t1 t2 : Nat)
    (h12 : t1 ≤ t2) (h2 : t2 < (applyPay m lp t1).2 + 300000) :
    applyPay (applyPay m lp t1).1 (applyPay m lp t1).2 t2 = applyPay m lp t1 := by
  rw [applyPay_eq m lp t1] at h2 ⊢
  by_cases hlp : lp = 0
  · subst hlp
    simp only [if_pos rfl, Nat.sub_self, Nat.zero_div, Nat.lt_irrefl,
      if_false] at h2 ⊢
    rw [applyPay_eq]
    simp
  · simp only [if_neg hlp] at h2 ⊢
    split_ifs at h2 ⊢ with h
    · dsimp only at h2 ⊢
      rw [applyPay_eq]
      have hne : ¬(lp + (t1 - lp) / 300000 * 300000 = 0) := by omega
      rw [if_neg hne]
      have hz : (t2 - (lp + (t1 - lp) / 300000 * 300000)) / 300000 = 0 := by
        omega
      rw [hz]
      norm_num
    · dsimp only at h2 ⊢
      rw [applyPay_eq]
      rw [if_neg hlp]
      have hz : (t2 - lp) / 300000 = 0 := by omega
      rw [hz]
      norm_num

/-- Witness for C4: a first accrual at `t1 = 720100` over a row with
`lastPay = 100`, followed by a second call at `t2 = 900000` (still inside
the tick that started at 600100), is a no-op. -/
theorem applyPay_idempotent_within_tick_witness :
    applyPay (applyPay 3 100 720100).1 (applyPay 3 100 720100).2 900000 =
      applyPay 3 100 720100 :=
  applyPay_idempotent_within_tick 3 100 720100 900000 (by decide) (by decide)

/-- Claim C10: for every player whose stored `lastPay` is 0 (the schema
default, also used for missing values), accrual treats the last-accrual
time as the current time, grants zero income and performs no write,
regardless of `now`. -/
theorem applyPay_zero_lastPay_noop (m : Int) (now : Nat) :
    applyPay m 0 now = (m, 0) := by
  simp [applyPay]

set_option maxHeartbeats 4000000 in
/-- Claim C7: `rollGrade` maps one uniform sample `r` in `[0,1)` to an
integer grade in `1..10` via cumulative thresholds evaluated in descending
rarity order, with band widths exactly `P(10)=0.02`, `P(9)=0.08`,
`P(8)=0.10`, `P(7)=0.14`, `P(6)=0.18`, `P(5)=0.18`, `P(4)=0.12`,
`P(3)=0.09`, `P(2)=0.06`, `P(1)=0.03`, which sum to 1: each grade's
preimage is the half-open band starting at the cumulative threshold with
the stated width. -/
theorem rollGrade_bands (r : ℚ) (h0 : 0 ≤ r) (h1 : r < 1) :
    (rollGrade r = 10 ↔ 0 ≤ r ∧ r < 0.02)
    ∧ (rollGrade r = 9 ↔ 0.02 ≤ r ∧ r < 0.02 + 0.08)
    ∧ (rollGrade r = 8 ↔ 0.10 ≤ r ∧ r < 0.10 + 0.10)
    ∧ (rollGrade r = 7 ↔ 0.20 ≤ r ∧ r < 0.20 + 0.14)
    ∧ (rollGrade r = 6 ↔ 0.34 ≤ r ∧ r < 0.34 + 0.18)
    ∧ (rollGrade r = 5 ↔ 0.52 ≤ r ∧ r < 0.52 + 0.18)
    ∧ (rollGrade r = 4 ↔ 0.70 ≤ r ∧ r < 0.70 + 0.12)
    ∧ (rollGrade r = 3 ↔ 0.82 ≤ r ∧ r < 0.82 + 0.09)
    ∧ (rollGrade r = 2 ↔ 0.91 ≤ r ∧ r < 0.91 + 0.06)
    ∧ (rollGrade r = 1 ↔ 0.97 ≤ r ∧ r < 0.97 + 0.03)
    ∧ (0.02 + 0.08 + 0.10 + 0.14 + 0.18 + 0.18 + 0.12 + 0.09 + 0.06 + 0.03 : ℚ)
        = 1 := by
  unfold rollGrade
  split_ifs with ha hb hc hd he hf hg hh hi <;>
    [norm_num at ha; norm_num at ha hb; norm_num at ha hb hc;
     norm_num at ha hb hc hd; norm_num at ha hb hc hd he;
     norm_num at ha hb hc hd he hf; norm_num at ha hb hc hd he hf hg;
     norm_num at ha hb hc hd he hf hg hh;
     norm_num at ha hb hc hd he hf hg hh hi;
     norm_num at ha hb hc hd he hf hg hh hi] <;>
    refine ⟨?_, ?_, ?_, ?_, ?_, ?_, ?_, ?_, ?_, ?_, by norm_num⟩ <;>
    norm_num <;>
    first
      | exact ⟨by linarith, by linarith⟩
      | (rintro ⟨hx1, hx2⟩; linarith)
      | (intro hx1 hx2; linarith)
      | (intro hx1; linarith)
      | linarith

/-- Witness for C7: the sample `r = 0.5` lies in the grade-6 band
`[0.34, 0.34 + 0.18)`. -/
theorem rollGrade_bands_witness :
    rollGrade 0.5 = 6 ↔ (0.34 : ℚ) ≤ 0.5 ∧ (0.5 : ℚ) < 0.34 + 0.18 :=
  (rollGrade_bands 0.5 (by norm_num) (by norm_num)).2.2.2.2.1

/-- Accrual touches only the `users` row: the collection is unchanged. -/
theorem applyPayS_coll (s : PState) (now : Nat) :
    (applyPayS s now).coll = s.coll := rfl

/-- Accrual can only increase the balance of the state. -/
theorem applyPayS_money_le (s : PState) (now : Nat) :
    s.money ≤ (applyPayS s now).money :=
  applyPay_money_le s.money s.lastPay now

/-- Claim C1: for every player and purchase request in which the balance
check passes (post-accrual balance at least the cost of 5 units) but
`drawCard` fails, the handler credits back exactly the debited cost and
reports failure, so the final state is exactly the post-accrual,
pre-purchase state; this holds in both store variants. -/
theorem open_refund_restores_balance (s : PState) (nowAcc : Nat)
    (e : DrawErr) (r1 r2 : ℚ) (now : Nat)
    (h : COST_ONE ≤ (applyPayS s nowAcc).money) :
    openPG s nowAcc (.error e) r1 r2 now
        = (.error .drawFailed, applyPayS s nowAcc)
    ∧ openSQ s nowAcc (.error e) r1 r2 now
        = (.error .drawFailed, applyPayS s nowAcc) := by
  have hmon : ¬((applyPayS s nowAcc).money < COST_ONE) := not_lt.mpr h
  constructor <;>
    simp [openPG, openSQ, openHandler, hmon, sub_add_cancel]

/-- Witness for C1: a player with 10 units and no pending accrual
(`lastPay = 5 = now`): the failed purchase returns the accrued state
unchanged. -/
theorem open_refund_restores_balance_witness :
    openPG { money := 10, lastPay := 5, coll := fun _ => none, pulls := [] }
        5 (.error .noImage) 0 0 7
      = (.error .drawFailed,
         applyPayS { money := 10, lastPay := 5, coll := fun _ => none,
                     pulls := [] } 5) :=
  (open_refund_restores_balance
    { money := 10, lastPay := 5, coll := fun _ => none, pulls := [] }
    5 .noImage 0 0 7 (by norm_num [applyPayS, applyPay, COST_ONE])).1

/-- Each engine operation preserves non-negativity of the balance. -/
theorem step_money_nonneg (s : PState) (op : Op) (h : 0 ≤ s.money) :
    0 ≤ (step s op).money := by
  cases op with
  | accrue now =>
    have hle := applyPayS_money_le s now
    simp only [step]
    omega
  | purchase nowAcc draw r1 r2 now =>
    have hle := applyPayS_money_le s nowAcc
    simp only [step, openPG, openHandler]
    split_ifs with hlt
    · dsimp only
      omega
    · cases draw with
      | error e => dsimp only; omega
      | ok c => dsimp only; omega
  | sellOne k =>
    simp only [step, sellHandler]
    split_ifs with hk
    · exact h
    · cases hcoll : s.coll k with
      | none => simp only [hcoll]; exact h
      | some it => simp only [hcoll]; omega

/-- The invariant propagates through any sequence of operations. -/
theorem foldl_step_money_nonneg (ops : List Op) (s : PState)
    (h : 0 ≤ s.money) : 0 ≤ (ops.foldl step s).money := by
  induction ops generalizing s with
  | nil => exact h
  | cons op rest ih => exact ih _ (step_money_nonneg s op h)

/-- Claim C6: starting from a new account with balance 0, every sequence of
engine operations (accrual, purchase, sell) keeps the balance
non-negative; in particular a purchase is rejected, before any debit, when
the post-accrual balance is below the cost of 5 units, leaving the state
exactly as accrual left it. -/
theorem balance_nonneg_invariant :
    (∀ now0 ops, 0 ≤ (runOps now0 ops).money)
    ∧ ∀ s nowAcc draw r1 r2 now,
        (applyPayS s nowAcc).money < COST_ONE →
        openPG s nowAcc draw r1 r2 now
          = (.error .insufficientFunds, applyPayS s nowAcc) := by
  constructor
  · intro now0 ops
    exact foldl_step_money_nonneg ops (newUser now0) le_rfl
  · intro s nowAcc draw r1 r2 now hlt
    simp [openPG, openHandler, hlt]

/-- Witness for C6: a concrete run (accrue, failed purchase, sell of a
non-owned key) keeps the balance non-negative, and a fresh account cannot
afford a purchase and is rejected with the accrued state unchanged. -/
theorem balance_nonneg_invariant_witness :
    0 ≤ (runOps 0 [Op.accrue 600000, Op.purchase 600000 (.error .noImage) 0 0 600000,
                   Op.sellOne "k"]).money
    ∧ openPG (newUser 7) 7 (.error .noImage) 0 0 7
        = (.error .insufficientFunds, applyPayS (newUser 7) 7) :=
  ⟨balance_nonneg_invariant.1 0 _,
   balance_nonneg_invariant.2 (newUser 7) 7 (.error .noImage) 0 0 7
     (by norm_num [applyPayS, applyPay, newUser, COST_ONE])⟩

/-- The collection map left by a successful purchase: the key of the drawn
card is upserted over the pre-accrual collection (accrual does not touch
the collection), every other key is unchanged. -/
theorem openHandler_ok_coll
    (upsert : Option Entry → Card → Nat → Nat → Nat → Entry)
    (s : PState) (nowAcc : Nat) (c : Card) (r1 r2 : ℚ) (now : Nat)
    (h : COST_ONE ≤ (applyPayS s nowAcc).money) :
    (openHandler upsert s nowAcc (.ok c) r1 r2 now).2.coll
      = fun x => if x = idKeyOf c
                 then some (upsert (s.coll (idKeyOf c)) c (rollGrade r1)
                     (rollMintForGrade (rollGrade r1) r2) now)
                 else s.coll x := by
  have hmon : ¬((applyPayS s nowAcc).money < COST_ONE) := not_lt.mpr h
  simp [openHandler, hmon, applyPayS_coll]

/-- A successful purchase leaves `money` at the post-accrual balance minus
the cost. -/
theorem openHandler_ok_money
    (upsert : Option Entry → Card → Nat → Nat → Nat → Entry)
    (s : PState) (nowAcc : Nat) (c : Card) (r1 r2 : ℚ) (now : Nat)
    (h : COST_ONE ≤ (applyPayS s nowAcc).money) :
    (openHandler upsert s nowAcc (.ok c) r1 r2 now).2.money
      = (applyPayS s nowAcc).money - COST_ONE := by
  have hmon : ¬((applyPayS s nowAcc).money < COST_ONE) := not_lt.mpr h
  simp [openHandler, hmon]

/-- The SQLite `CASE WHEN new > grade THEN new ELSE grade END` is the
maximum. -/
theorem sqlite_grade_is_max (a b : Nat) :
    (if b > a then b else a) = max a b := by
  rw [Nat.max_def]
  split_ifs <;> omega

/-- Claim C5: for every player and every pair of successful pulls of the
same card (same composite identity key), the collection holds one entry
for that key with `count = 2`, `grade = max(grade1, grade2)`,
`mint = mint1 OR mint2` and `lastAt` the second pull's timestamp; the
grades and mints are those rolled from the consumed samples.  The first
conjunct states it for the Postgres handler; the second shows the SQLite
select-then-update upsert computes the same entry as the Postgres
`ON CONFLICT` upsert on every input, so the property holds in both store
variants. -/
theorem double_pull_merges (s : PState) (c : Card) (n1 n2 t1 t2 : Nat)
    (r1a r1b r2a r2b : ℚ)
    (hnone : s.coll (idKeyOf c) = none)
    (h1 : COST_ONE ≤ (applyPayS s n1).money)
    (h2 : COST_ONE ≤ (applyPayS ((openPG s n1 (.ok c) r1a r1b t1).2) n2).money) :
    ((openPG ((openPG s n1 (.ok c) r1a r1b t1).2) n2 (.ok c) r2a r2b t2).2).coll
        (idKeyOf c)
      = some { name := c.name, setName := c.set, image := c.image,
               grade := max (rollGrade r1a) (rollGrade r2a),
               mint := if rollMintForGrade (rollGrade r1a) r1b = 1
                          ∨ rollMintForGrade (rollGrade r2a) r2b = 1
                       then 1 else 0,
               count := 2, lastAt := t2 }
    ∧ ∀ e g m t, sqliteUpsert e c g m t = pgUpsert e c g m t := by
  constructor
  · have hc1 : ((openPG s n1 (.ok c) r1a r1b t1).2).coll (idKeyOf c)
        = some (pgUpsert (s.coll (idKeyOf c)) c (rollGrade r1a)
            (rollMintForGrade (rollGrade r1a) r1b) t1) := by
      rw [openPG, openHandler_ok_coll pgUpsert s n1 c r1a r1b t1 h1]
      simp
    rw [openPG, openHandler_ok_coll pgUpsert _ n2 c r2a r2b t2 h2]
    simp only [if_pos rfl]
    rw [hc1, hnone]
    simp [pgUpsert, pgMerge, insertEntry]
  · intro e g m t
    cases e with
    | none => rfl
    | some old =>
      simp [sqliteUpsert, pgUpsert, sqliteMerge, pgMerge, sqlite_grade_is_max]

/-- Witness for C5: a player with 10 units and `lastPay = 0` (no accrual)
pulling the card `⟨"A", "S", "", "a.png"⟩` twice with samples giving grades
6 (r = 0.5) and 9 (r = 0.05) and no mint: the merged entry has count 2,
grade 9, mint 0, lastAt the second timestamp. -/
theorem double_pull_merges_witness :
    ((openPG ((openPG { money := 10, lastPay := 0, coll := fun _ => none,
                        pulls := [] }
          7 (.ok { name := "A", set := "S", rarity := "", image := "a.png" })
          0.5 0.5 8).2)
        9 (.ok { name := "A", set := "S", rarity := "", image := "a.png" })
        0.05 0.5 11).2).coll
      (idKeyOf { name := "A", set := "S", rarity := "", image := "a.png" })
      = some { name := "A", setName := "S", image := "a.png",
               grade := max (rollGrade 0.5) (rollGrade 0.05),
               mint := if rollMintForGrade (rollGrade 0.5) 0.5 = 1
                          ∨ rollMintForGrade (rollGrade 0.05) 0.5 = 1
                       then 1 else 0,
               count := 2, lastAt := 11 } :=
  (double_pull_merges
    { money := 10, lastPay := 0, coll := fun _ => none, pulls := [] }
    { name := "A", set := "S", rarity := "", image := "a.png" }
    7 9 8 11 0.5 0.5 0.05 0.5 rfl
    (by norm_num [applyPayS, applyPay, COST_ONE])
    (by norm_num [applyPayS, applyPay, COST_ONE, openPG, openHandler,
                  rollGrade])).1

/-- Counterexample for C8 as stated: for the empty `idKey` (for which no
collection entry exists either) the handler fails with the missing-key
error of line 435, not with `NotOwned`. -/
theorem sell_empty_key_counterexample :
    sellHandler (newUser 0) "" = (.error .missingKey, newUser 0)
    ∧ (newUser 0).coll "" = none
    ∧ SellErr.missingKey ≠ SellErr.notOwned :=
  ⟨rfl, rfl, by decide⟩

/-- Claim C8 (amended: for every non-empty `idKey`; the empty key is
rejected earlier with the missing-key error): sell fails with `NotOwned`
leaving the state unchanged when no entry exists; with an entry of
`count = 1` it deletes the entry and credits exactly 1 unit; with
`count > 1` it decrements `count` by exactly 1 and credits exactly 1
unit. -/
theorem sell_spec (s : PState) (k : String) (hk : k ≠ "") :
    (s.coll k = none → sellHandler s k = (.error .notOwned, s))
    ∧ (∀ it, s.coll k = some it → it.count = 1 →
        sellHandler s k =
          (.ok (s.money + 1),
           { s with money := s.money + 1,
                    coll := fun x => if x = k then none else s.coll x }))
    ∧ (∀ it, s.coll k = some it → 1 < it.count →
        sellHandler s k =
          (.ok (s.money + 1),
           { s with money := s.money + 1,
                    coll := fun x =>
                      if x = k then some { it with count := it.count - 1 }
                      else s.coll x })) := by
  refine ⟨?_, ?_, ?_⟩
  · intro hnone
    simp [sellHandler, hk, hnone]
  · intro it hsome hcount
    have hle : it.count ≤ 1 := by omega
    simp [sellHandler, hk, hsome, if_pos hle]
  · intro it hsome hcount
    have hle : ¬(it.count ≤ 1) := by omega
    simp [sellHandler, hk, hsome, if_neg hle]

/-- Witness for C8: selling the key `"k"` out of a two-copy entry
decrements the count and credits 1 unit; selling the unknown key `"z"`
fails with `NotOwned`. -/
theorem sell_spec_witness :
    sellHandler { money := 3, lastPay := 0,
                  coll := fun x => if x = "k"
                    then some { name := "A", setName := "S", image := "a.png",
                                grade := 6, mint := 0, count := 2, lastAt := 8 }
                    else none,
                  pulls := [] } "k"
      = (.ok 4,
         { money := 4, lastPay := 0,
           coll := fun x =>
             if x = "k"
             then some { name := "A", setName := "S", image := "a.png",
                         grade := 6, mint := 0, count := 1, lastAt := 8 }
             else (fun x => if x = "k"
               then some { name := "A", setName := "S", image := "a.png",
                           grade := 6, mint := 0, count := 2, lastAt := 8 }
               else none) x,
           pulls := [] })
    ∧ sellHandler (newUser 0) "z" = (.error .notOwned, newUser 0) := by
  constructor
  · have h := (sell_spec
      { money := 3, lastPay := 0,
        coll := fun x => if x = "k"
          then some { name := "A", setName := "S", image := "a.png",
                      grade := 6, mint := 0, count := 2, lastAt := 8 }
          else none,
        pulls := [] } "k" (by decide)).2.2
      { name := "A", setName := "S", image := "a.png",
        grade := 6, mint := 0, count := 2, lastAt := 8 }
      (by simp) (by decide)
    simpa using h
  · exact (sell_spec (newUser 0) "z" (by decide)).1 rfl

/-- Claim C9 (the friend feature is modelled from the spec, since it is
absent from src/): the friend-scoped read succeeds with the owner's items
exactly when a friend edge requester→owner exists, and fails with
`Forbidden` when none exists. -/
theorem friend_scoped_read (edges : List (String × String))
    (colls : String → String → Option Entry) (requester owner : String) :
    ((requester, owner) ∈ edges →
        listFriendCollection edges colls requester owner = .ok (colls owner))
    ∧ ((requester, owner) ∉ edges →
        listFriendCollection edges colls requester owner
          = .error .forbidden) := by
  constructor <;> intro h <;> simp [listFriendCollection, h]

/-- Witness for C9: with the single edge alice→bob, alice can read bob's
collection and bob cannot read alice's. -/
theorem friend_scoped_read_witness :
    listFriendCollection [("alice", "bob")] (fun _ _ => none) "alice" "bob"
        = .ok ((fun _ _ => none) "bob")
    ∧ listFriendCollection [("alice", "bob")] (fun _ _ => none) "bob" "alice"
        = .error .forbidden :=
  ⟨(friend_scoped_read [("alice", "bob")] (fun _ _ => none) "alice" "bob").1
      (by decide),
   (friend_scoped_read [("alice", "bob")] (fun _ _ => none) "bob" "alice").2
      (by decide)⟩

/-- An offline pool card with a usable image, for the C2 counterexample. -/
def offCardA : Card :=
  { name := "Alpha", set := "SetA", rarity := "", image := "alpha.png" }

/-- A remote try whose list fetch, pick, detail fetch and image
normalization all succeed, for the C2 counterexample. -/
def remoteTryB : TryInput :=
  { listResp := some [{ id := "b1", name := "Beta" }],
    pickIdx := 0,
    detailResp := some { name := "Beta",
                         setO := some { name := "SetB", id := "sb" },
                         rarity := "rare", image := .str "beta.png" } }

/-- The card `remoteTryB` resolves to. -/
def remoteCardB : Card :=
  { name := "Beta", set := "SetB", rarity := "rare", image := "beta.png" }

/-- A remote try whose list fetch already fails. -/
def failTry : TryInput :=
  { listResp := none, pickIdx := 0, detailResp := none }

/-- Counterexample for C2 as stated: in hybrid mode, with a non-empty
offline pool and six remote tries that would all succeed (producing a
different card), `drawCard` returns the offline card having performed zero
remote list fetches: the offline pool is consulted before the remote path,
not only after the six tries are exhausted. -/
theorem drawCard_offline_first_counterexample :
    tryOnce remoteTryB = some remoteCardB
    ∧ remoteCardB ≠ offCardA
    ∧ drawCard false [offCardA] 0 (List.replicate 6 remoteTryB) 0
        = (.ok offCardA, 0) :=
  ⟨by decide, by decide, rfl⟩

/-- If every try in a list of the right length fails, the remote loop
fails after consuming all of them. -/
theorem runTries_all_none (n : Nat) (ts : List TryInput)
    (hlen : ts.length = n) (hall : ∀ t ∈ ts, tryOnce t = none) :
    runTries n ts = (none, n) := by
  induction n generalizing ts with
  | zero => simp [runTries]
  | succ k ih =>
    cases ts with
    | nil => simp at hlen
    | cons t rest =>
      have ht : tryOnce t = none := hall t (by simp)
      have hrest : ∀ u ∈ rest, tryOnce u = none := fun u hu =>
        hall u (by simp [hu])
      have hlen2 : rest.length = k := by simpa using hlen
      simp [runTries, ht, ih rest hlen2 hrest]

/-- Claim C2 (amended: in hybrid mode `drawCard` draws from the offline
pool FIRST, returning the picked entry when it has a usable image and
performing zero remote fetches; only when that initial offline draw fails
does it attempt up to 6 remote tries, each fetching the brief list,
picking one entry uniformly, fetching its detail and normalizing its
image; only after all 6 tries fail does it make one final single draw from
the offline pool, raising the no-card error if that also fails). -/
theorem drawCard_hybrid_order (pool : List Card) (i1 i2 : Nat)
    (tries : List TryInput) :
    (∀ c, offlineDraw pool i1 = some c →
        drawCard false pool i1 tries i2 = (.ok c, 0))
    ∧ (offlineDraw pool i1 = none → tries.length = MAX_TRIES →
        (∀ t ∈ tries, tryOnce t = none) →
        drawCard false pool i1 tries i2 =
          ((offlineDraw pool i2).elim (Except.error DrawErr.noImage)
              Except.ok,
           MAX_TRIES))
    ∧ (∀ t rest c, offlineDraw pool i1 = none → tries = t :: rest →
        tryOnce t = some c →
        drawCard false pool i1 tries i2 = (.ok c, 1)) := by
  refine ⟨?_, ?_, ?_⟩
  · intro c hc
    simp [drawCard, hc]
  · intro hnone hlen hall
    have hrun := runTries_all_none MAX_TRIES tries hlen hall
    cases h2 : offlineDraw pool i2 with
    | none => simp [drawCard, hnone, hrun, h2]
    | some c => simp [drawCard, hnone, hrun, h2]
  · intro t rest c hnone htries ht
    subst htries
    simp [drawCard, hnone, MAX_TRIES, runTries, ht]

/-- Witness for C2 (amended): with an empty offline pool and six failing
tries, hybrid `drawCard` falls through to the final offline draw and,
the pool being empty, raises the no-card error after 6 remote fetches;
and a successful first try is returned with one remote fetch. -/
theorem drawCard_hybrid_order_witness :
    drawCard false [] 0 (List.replicate 6 failTry) 0
      = ((offlineDraw [] 0).elim (Except.error DrawErr.noImage) Except.ok,
         MAX_TRIES)
    ∧ drawCard false [] 0 (remoteTryB :: List.replicate 5 remoteTryB) 0
      = (.ok remoteCardB, 1) :=
  ⟨(drawCard_hybrid_order [] 0 0 _).2.1 rfl (by decide)
      (fun t hu => by
        have ht : t = failTry := List.eq_of_mem_replicate hu
        rw [ht]; rfl),
   (drawCard_hybrid_order [] 0 0 _).2.2 remoteTryB (List.replicate 5 remoteTryB)
      remoteCardB rfl rfl (by decide)⟩

end PokGacha
